import Mathlib

/-!
Shallow embedding of the greedy-api in-memory key-value store
(`src/methods.go`, `src/handlers.go`): the data model, the store
operations `Set`, `Get`, `QPush`, `QPop`, `BQPop`, and the SET / BQPOP
branches of the HTTP command handler, together with theorems settling
the specification's claims.

Modelling conventions:
* Go `time.Time` instants are integers (`Int`).  The zero value
  `time.Time{}` is the instant `0`; `time.Now()` is a parameter `now`
  (the real clock is always strictly after the zero time, i.e.
  `0 < now`).  `a.After(b)` is `a > b`.
* The Go map `map[string]*KeyValue` is an association list with
  in-place replacement on write and unique keys; Go's `delete` removes
  the key's binding.
* Mutexes are elided where they only serialise: every operation is a
  function from the store state (plus `now`) to a result and the
  successor store state.  The one place the lock discipline changes
  behaviour is kept: `BQPop` holds the store's `sync.RWMutex` (via a
  deferred unlock) when its non-empty branch calls `store.QPop`, which
  re-acquires that same non-reentrant mutex — a deterministic,
  single-threaded self-deadlock.  `BQPop` therefore returns an
  `Option`: `none` models the call that never returns (and never
  touches the store), `some` a normal return.
* `float64` is modelled by exact rationals plus the special values
  (`±Inf`, `NaN`) recognised by `strconv.ParseFloat`.  Rounding to
  binary floating point and the `ErrRange` overflow error are not
  modelled: the store only ever compares the timeout with zero, and
  every theorem below uses the parser's acceptance predicate in the
  rejection direction only, where the modelled grammar is a superset
  of the strings `strconv.ParseFloat` accepts without error.
-/

deriving instance DecidableEq for Except

namespace GreedyApi

/-- The white-space test used by Go's `strings.Fields` via
`unicode.IsSpace`: the Unicode `White_Space` code points. -/
def goIsSpace (c : Char) : Bool :=
  decide (c = ' ' ∨ c = '\t' ∨ c = '\n' ∨ c = '\x0b' ∨ c = '\x0c' ∨ c = '\r' ∨
    c.toNat = 133 ∨ c.toNat = 160 ∨ c.toNat = 5760 ∨
    (8192 ≤ c.toNat ∧ c.toNat ≤ 8202) ∨ c.toNat = 8232 ∨ c.toNat = 8233 ∨
    c.toNat = 8239 ∨ c.toNat = 8287 ∨ c.toNat = 12288)

/-- Core of `strings.Fields`: split a character list around maximal runs
of white space, accumulating the current (reversed) field in `acc`. -/
def fieldsAux : List Char → List Char → List (List Char)
  | [], acc => if acc = [] then [] else [ acc.reverse ]
  | c :: cs, acc =>
    if goIsSpace c then
      if acc = [] then fieldsAux cs [] else acc.reverse :: fieldsAux cs []
    else
      fieldsAux cs (c :: acc)

/-- Go `strings.Fields s`: the white-space-separated fields of `s`. -/
def goFields (s : String) : List String :=
  (fieldsAux s.data []).map String.mk

/-- Go `strings.Join elems sep`. -/
def goJoin (elems : List String) (sep : String) : String :=
  String.intercalate sep elems

/-- Accumulate a run of decimal digits; fails on a non-digit. -/
def digitsToNat : List Char → Nat → Option Nat
  | [], acc => some acc
  | c :: cs, acc =>
    if decide ('0' ≤ c ∧ c ≤ '9') then digitsToNat cs (acc * 10 + (c.toNat - 48))
    else none

/-- Go `strconv.Atoi`: an optional sign followed by decimal digits,
within the 64-bit `int` range; anything else is a parse error. -/
def goAtoi (s : String) : Option Int :=
  let p : Bool × List Char :=
    match s.data with
    | '+' :: rest => (false, rest)
    | '-' :: rest => (true, rest)
    | l => (false, l)
  match p.2 with
  | [] => none
  | ds =>
    match digitsToNat ds 0 with
    | none => none
    | some n =>
      let v : Int := if p.1 then -(n : Int) else (n : Int)
      if decide (-(2 ^ 63 : Int) ≤ v ∧ v ≤ 2 ^ 63 - 1) then some v else none

/-- Go's byte-level `lower` helper from `strconv`: set the ASCII case bit. -/
def lowerCh (c : Char) : Char := Char.ofNat (c.toNat ||| 32)

/-- Decimal digit test. -/
def isDigitDec (c : Char) : Bool := decide ('0' ≤ c ∧ c ≤ '9')

/-- Value of a mantissa digit: decimal always, hexadecimal letters when
`hex` is set; `none` for any other character. -/
def floatDigit? (hex : Bool) (c : Char) : Option Nat :=
  if isDigitDec c then some (c.toNat - 48)
  else if hex ∧ decide ('a' ≤ lowerCh c ∧ lowerCh c ≤ 'f') then
    some ((lowerCh c).toNat - 87)
  else none

/-- State of the mantissa scan inside `strconv`'s `readFloat`. -/
structure MantScan where
  val : Nat
  frac : Nat
  sawDot : Bool
  sawDigits : Bool
  und : Bool

/-- Mantissa scan of `readFloat`: digits and underscores, with at most
one dot (a second dot ends the scan, leaving it unconsumed). -/
def scanMant (hex : Bool) : List Char → MantScan → MantScan × List Char
  | [], st => (st, [])
  | c :: cs, st =>
    if c = '_' then scanMant hex cs { st with und := true }
    else if c = '.' then
      if st.sawDot then (st, c :: cs)
      else scanMant hex cs { st with sawDot := true }
    else
      match floatDigit? hex c with
      | some d =>
        scanMant hex cs
          { st with
            val := st.val * (if hex then 16 else 10) + d
            frac := if st.sawDot then st.frac + 1 else st.frac
            sawDigits := true }
      | none => (st, c :: cs)

/-- Exponent-digit scan of `readFloat`: decimal digits and underscores,
with Go's cap of the accumulated exponent at 10000. -/
def scanExpDigits : List Char → Nat → Bool → Nat × Bool × List Char
  | [], e, und => (e, und, [])
  | c :: cs, e, und =>
    if c = '_' then scanExpDigits cs e true
    else if isDigitDec c then
      scanExpDigits cs (if e < 10000 then e * 10 + (c.toNat - 48) else e) und
    else (e, und, c :: cs)

/-- Inner loop of `strconv`'s `underscoreOK`: `saw` tracks the class of
the previous character (`'0'` digit, `'_'` underscore, `'!'` other,
`'^'` start). -/
def underscoreOKCore (hex : Bool) : List Char → Char → Bool
  | [], saw => decide (saw ≠ '_')
  | c :: cs, saw =>
    if isDigitDec c ∨ (hex ∧ decide ('a' ≤ lowerCh c ∧ lowerCh c ≤ 'f')) then
      underscoreOKCore hex cs '0'
    else if c = '_' then
      decide (saw = '0') && underscoreOKCore hex cs '_'
    else
      decide (saw ≠ '_') && underscoreOKCore hex cs '!'

/-- Go `strconv.underscoreOK`: underscores may appear only between
digits, or between a base prefix and a digit. -/
def underscoreOK (cs : List Char) : Bool :=
  let body : List Char :=
    match cs with
    | c :: rest => if c = '-' ∨ c = '+' then rest else cs
    | [] => []
  match body with
  | '0' :: p :: rest =>
    if lowerCh p = 'b' ∨ lowerCh p = 'o' ∨ lowerCh p = 'x' then
      underscoreOKCore (lowerCh p = 'x') rest '0'
    else
      underscoreOKCore false body '^'
  | _ => underscoreOKCore false body '^'

/-- A Go `float64` value as far as this program observes it: an exact
rational, or one of the special values `strconv.ParseFloat` can
produce. -/
inductive GoFloatVal where
  | finite (q : Rat)
  | posInf
  | negInf
  | nan
deriving DecidableEq

/-- Rational power with an integer exponent. -/
def ratPowInt (b : Rat) (e : Int) : Rat :=
  if 0 ≤ e then b ^ e.toNat else (b ^ (-e).toNat)⁻¹

/-- Syntactic core of `strconv`'s `readFloat` on an entire string:
returns `(neg, mantissa, fractionDigits, hex, exponent, underscores)`
when the string is a complete decimal or hexadecimal float literal. -/
def readFloatCore (cs0 : List Char) : Option (Bool × Nat × Nat × Bool × Int × Bool) :=
  let sp : Bool × List Char :=
    match cs0 with
    | '+' :: r => (false, r)
    | '-' :: r => (true, r)
    | l => (false, l)
  let hp : Bool × List Char :=
    match sp.2 with
    | '0' :: x :: r => if lowerCh x = 'x' then (true, r) else (false, sp.2)
    | l => (false, l)
  let hex := hp.1
  let m := scanMant hex hp.2 ⟨0, 0, false, false, false⟩
  if m.1.sawDigits = false then none
  else
    match m.2 with
    | [] =>
      if hex then none
      else some (sp.1, m.1.val, m.1.frac, hex, 0, m.1.und)
    | c :: r =>
      if lowerCh c = (if hex then 'p' else 'e') then
        let ep : Int × List Char :=
          match r with
          | '+' :: rr => (1, rr)
          | '-' :: rr => (-1, rr)
          | l => (1, l)
        match ep.2 with
        | [] => none
        | d :: _ =>
          if isDigitDec d then
            let ed := scanExpDigits ep.2 0 false
            if ed.2.2 = [] then
              some (sp.1, m.1.val, m.1.frac, hex, ep.1 * (ed.1 : Int), m.1.und || ed.2.1)
            else none
          else none
      else none

/-- Go `strconv.ParseFloat`: the special values `NaN` and (signed)
`Inf`/`Infinity` (case-insensitively), or a complete float literal.
The finite value is the literal's exact rational; `float64` rounding
and the out-of-range error are not modelled (see the header note). -/
def goParseFloat (s : String) : Option GoFloatVal :=
  let cs := s.data
  let low := cs.map lowerCh
  if low = [ 'n', 'a', 'n' ] then some GoFloatVal.nan
  else
    let sp : Bool × List Char :=
      match low with
      | '+' :: r => (false, r)
      | '-' :: r => (true, r)
      | l => (false, l)
    if sp.2 = [ 'i', 'n', 'f' ] ∨ sp.2 = [ 'i', 'n', 'f', 'i', 'n', 'i', 't', 'y' ] then
      some (if sp.1 then GoFloatVal.negInf else GoFloatVal.posInf)
    else
      match readFloatCore cs with
      | none => none
      | some (neg, mant, frac, hex, e, und) =>
        if und = true ∧ underscoreOK cs = false then none
        else
          let base : Rat := if hex then 2 else 10
          let fracBase : Rat := if hex then 16 else 10
          let q : Rat := (mant : Rat) * ratPowInt base e / fracBase ^ frac
          some (GoFloatVal.finite (if neg then -q else q))

/-- One stored entry (`KeyValue` in the Go source): a string payload and
an optional absolute expiry instant.  `Set` always stores `some`
instant (the Go code stores a pointer to its `expiryTime` argument,
never nil); `QPush`-created entries store `none` (a nil pointer). -/
structure KeyValue where
  value : String
  expiryTime : Option Int
deriving DecidableEq

/-- The store's map, `map[string]*KeyValue`, as an association list. -/
abbrev Store := List (String × KeyValue)

/-- Go map read `store.data[key]`. -/
def lookupKey : Store → String → Option KeyValue
  | [], _ => none
  | (k', v') :: rest, k => if k' = k then some v' else lookupKey rest k

/-- Go map write `store.data[key] = v`: replace in place, else append. -/
def insertKey : Store → String → KeyValue → Store
  | [], k, v => [ (k, v) ]
  | (k', v') :: rest, k, v =>
    if k' = k then (k, v) :: rest else (k', v') :: insertKey rest k v

/-- Go `delete(store.data, key)`. -/
def deleteKey : Store → String → Store
  | [], _ => []
  | (k', v') :: rest, k => if k' = k then rest else (k', v') :: deleteKey rest k

/-- The expiry test `keyValue.expiryTime != nil && time.Now().After(*keyValue.expiryTime)`
shared by `Get` and `QPop`. -/
def expired (now : Int) (kv : KeyValue) : Bool :=
  match kv.expiryTime with
  | some t => decide (now > t)
  | none => false

/-- The element sequence the store associates with a key: the
white-space fields of the entry's payload (the representation both
`QPop` and `BQPop` read). -/
def elements (s : Store) (k : String) : List String :=
  match lookupKey s k with
  | some kv => goFields kv.value
  | none => []

/-- `(*KeyValueStore).Set` from `src/methods.go`: conditional write.
`NX` fails when the key is present, `XX` fails when it is absent;
otherwise the entry is overwritten with the given payload and a
(always non-nil) expiry instant. -/
def Set (s : Store) (key value : String) (expiryTime : Int) (condition : String) :
    Except String String × Store :=
  if condition = ("NX") ∧ (lookupKey s key).isSome then
    (Except.error ("key already exists"), s)
  else if condition = ("XX") ∧ (lookupKey s key).isNone then
    (Except.error ("key does not exist"), s)
  else
    (Except.ok ("OK"), insertKey s key ⟨value, some expiryTime⟩)

/-- `(*KeyValueStore).Get` from `src/methods.go`: a present entry whose
expiry instant has passed is deleted and reported as expired; an
absent key is "key not found". -/
def Get (now : Int) (s : Store) (key : String) : Except String String × Store :=
  match lookupKey s key with
  | some keyValue =>
    if expired now keyValue then
      (Except.error ("key has expired"), deleteKey s key)
    else
      (Except.ok keyValue.value, s)
  | none => (Except.error ("key not found"), s)

/-- `(*KeyValueStore).QPush` from `src/methods.go`: create the entry
(empty payload, nil expiry) when absent, then append `value + " "` for
each argument in order. -/
def QPush (s : Store) (key : String) (values : List String) : Store :=
  let s1 : Store :=
    match lookupKey s key with
    | none => insertKey s key ⟨(""), none⟩
    | some _ => s
  values.foldl
    (fun st value =>
      match lookupKey st key with
      | some kv => insertKey st key ⟨kv.value ++ value ++ (" "), kv.expiryTime⟩
      | none => st) s1

/-- `(*KeyValueStore).QPop` from `src/methods.go`: expired entries are
deleted and reported as "queue is empty"; otherwise the last
white-space field of the payload is removed and returned, and a
field-less payload means the entry is deleted with "queue is empty".
An absent key is "key not found". -/
def QPop (now : Int) (s : Store) (key : String) : Except String String × Store :=
  match lookupKey s key with
  | some keyValue =>
    if expired now keyValue then
      (Except.error ("queue is empty"), deleteKey s key)
    else
      match (goFields keyValue.value).getLast? with
      | some lastValue =>
        (Except.ok lastValue,
          insertKey s key
            ⟨goJoin ((goFields keyValue.value).dropLast) (" "), keyValue.expiryTime⟩)
      | none => (Except.error ("queue is empty"), deleteKey s key)
  | none => (Except.error ("key not found"), s)

/-- `(*KeyValueStore).BQPop` from `src/methods.go`.  An absent key is
"queue does not exist".  A payload with fields executes
`return store.QPop(key)` while the deferred unlock still holds the
store's non-reentrant `sync.RWMutex`, and `QPop` begins by acquiring
that same mutex: the call self-deadlocks deterministically, never
returns a value and never reaches `QPop`'s body — modelled as `none`.
Timeout `0` returns `("", nil)`, an empty-string success.  Otherwise
the function waits: the only send on its channel is the empty string
the timeout goroutine delivers after sleeping, so the `select` always
receives `""` and the call always ends in "timeout exceeded" — no push
can ever fulfil it (nothing else writes to the channel, and the store
mutex is held for the whole wait). -/
def BQPop (_now : Int) (s : Store) (key : String) (timeout : GoFloatVal) :
    Option (Except String String × Store) :=
  match lookupKey s key with
  | none => some (Except.error ("queue does not exist"), s)
  | some queue =>
    if 0 < (goFields queue.value).length then
      none
    else if timeout = GoFloatVal.finite 0 then
      some (Except.ok (""), s)
    else
      some (Except.error ("timeout exceeded"), s)

/-- Response envelope written by the handler branches in
`src/handlers.go`: an error message, a `result` field, or a `value`
field. -/
inductive HandlerResp where
  | errorResp (msg : String)
  | okResult (res : String)
  | okValue (v : String)
deriving DecidableEq

/-- The option-parsing loop of the `SET` branch of `handleRequest`
(`src/handlers.go`): scan the tokens after `SET <key> <value>`; `EX`
followed by a token is fed to `strconv.Atoi` (failure: "invalid expiry
time"), `NX`/`XX` set the condition, anything else is "invalid
command".  The expiry instant is `now + seconds`. -/
def parseSetArgs (now : Int) : List String → Int → String → Except String (Int × String)
  | [], e, c => Except.ok (e, c)
  | "EX" :: n :: rest, _e, c =>
    match goAtoi n with
    | none => Except.error ("invalid expiry time")
    | some k => parseSetArgs now rest (now + k) c
  | p :: rest, e, _c =>
    if p = ("NX") ∨ p = ("XX") then parseSetArgs now rest e p
    else Except.error ("invalid command")

/-- The `SET` case of `handleRequest` (`src/handlers.go`): at least
three tokens, option parsing, then `store.Set`.  With no `EX` option
the expiry passed to `Set` is the zero `time.Time`, instant `0`. -/
def handleSetCmd (now : Int) (s : Store) (parts : List String) : HandlerResp × Store :=
  match parts with
  | _ :: key :: value :: args =>
    match parseSetArgs now args 0 ("") with
    | Except.error e => (HandlerResp.errorResp e, s)
    | Except.ok ec =>
      match Set s key value ec.1 ec.2 with
      | (Except.error e, s') => (HandlerResp.errorResp e, s')
      | (Except.ok r, s') => (HandlerResp.okResult r, s')
  | _ => (HandlerResp.errorResp ("invalid command"), s)

/-- The `BQPOP` case of `handleRequest` (`src/handlers.go`): exactly
three tokens, `strconv.ParseFloat` on the timeout (failure: "invalid
timeout" before the store is touched), then `store.BQPop`.  When
`BQPop` self-deadlocks the handler never writes a response (`none`). -/
def handleBQPopCmd (now : Int) (s : Store) (parts : List String) :
    Option (HandlerResp × Store) :=
  match parts with
  | [ _, key, t ] =>
    match goParseFloat t with
    | none => some (HandlerResp.errorResp ("invalid timeout"), s)
    | some q =>
      match BQPop now s key q with
      | none => none
      | some (Except.error e, s') => some (HandlerResp.errorResp e, s')
      | some (Except.ok v, s') => some (HandlerResp.okValue v, s')
  | _ => some (HandlerResp.errorResp ("invalid command"), s)

/-! ### Association-list and string lemmas -/

theorem lookupKey_insertKey_self (s : Store) (k : String) (v : KeyValue) :
    lookupKey (insertKey s k v) k = some v := by
  induction s with
  | nil => simp [insertKey, lookupKey]
  | cons hd tl ih =>
    obtain ⟨k', v'⟩ := hd
    by_cases h : k' = k
    · simp [insertKey, lookupKey, h]
    · simp [insertKey, lookupKey, h, ih]

theorem insertKey_insertKey (s : Store) (k : String) (v w : KeyValue) :
    insertKey (insertKey s k v) k w = insertKey s k w := by
  induction s with
  | nil => simp [insertKey]
  | cons hd tl ih =>
    obtain ⟨k', v'⟩ := hd
    by_cases h : k' = k
    · simp [insertKey, h]
    · simp [insertKey, h, ih]

theorem string_data_append (a b : String) : (a ++ b).data = a.data ++ b.data := by
  cases a; cases b; rfl

theorem string_mk_data (v : String) : String.mk v.data = v := by
  cases v; rfl

theorem goIsSpace_space : goIsSpace ' ' = true := by decide

theorem fieldsAux_append_space (l acc : List Char) :
    fieldsAux (l ++ [ ' ' ]) acc = fieldsAux l acc := by
  induction l generalizing acc with
  | nil =>
    by_cases h : acc = []
    · simp [fieldsAux, goIsSpace_space, h]
    · simp [fieldsAux, goIsSpace_space, h]
  | cons c cs ih =>
    by_cases h : goIsSpace c
    · by_cases ha : acc = [] <;> simp [fieldsAux, h, ha, ih]
    · simp [fieldsAux, h, ih]

theorem fieldsAux_nonspace (l acc : List Char) (h1 : l ≠ [])
    (h2 : ∀ c ∈ l, goIsSpace c = false) :
    fieldsAux l acc = [ acc.reverse ++ l ] := by
  induction l generalizing acc with
  | nil => exact absurd rfl h1
  | cons c cs ih =>
    have hc : goIsSpace c = false := h2 c (by simp)
    by_cases hcs : cs = []
    · subst hcs
      simp [fieldsAux, hc]
    · have hrec := ih (c :: acc) hcs (fun x hx => h2 x (by simp [hx]))
      simp [fieldsAux, hc, hrec]

theorem goFields_space_suffix (v : String) : goFields (v ++ (" ")) = goFields v := by
  unfold goFields
  rw [string_data_append]
  have h1 : ((" ") : String).data = [ ' ' ] := rfl
  rw [h1, fieldsAux_append_space]

theorem goFields_push_step (v : String) :
    goFields ((("")) ++ v ++ (" ")) = goFields v := by
  unfold goFields
  rw [string_data_append, string_data_append]
  have h1 : ((" ") : String).data = [ ' ' ] := rfl
  have h2 : ((("")) : String).data = [] := rfl
  rw [h1, h2, List.nil_append, fieldsAux_append_space]

theorem goFields_single (v : String) (h1 : v.data ≠ [])
    (h2 : ∀ c ∈ v.data, goIsSpace c = false) : goFields v = [ v ] := by
  unfold goFields
  rw [fieldsAux_nonspace v.data [] h1 h2]
  simp [string_mk_data]

theorem QPush_fresh (s : Store) (k v : String) (h : lookupKey s k = none) :
    QPush s k [ v ] = insertKey s k ⟨(("")) ++ v ++ (" "), none⟩ := by
  unfold QPush
  rw [h]
  simp [lookupKey_insertKey_self, insertKey_insertKey]

theorem QPush_existing (s : Store) (k v : String) (kv : KeyValue)
    (h : lookupKey s k = some kv) :
    QPush s k [ v ] = insertKey s k ⟨kv.value ++ v ++ (" "), kv.expiryTime⟩ := by
  unfold QPush
  rw [h]
  simp [h]

/-! ### Claim theorems -/

/-- C1: the blocking wait of `BQPop` can never be fulfilled by a push.
Evaluated at the failing input of the claim's scenario (key `"k"`
present with an empty element sequence, timeout `10`), `BQPop` returns
"timeout exceeded" and leaves the store as it was: its channel only
ever receives the timeout sentinel, so no concurrently pushed value is
ever delivered, contrary to the claim that a push before the deadline
is handed to the earliest-registered waiter. -/
theorem bqpop_empty_always_times_out :
    BQPop 0 [ (("k" : String), (⟨(""), none⟩ : KeyValue)) ] ("k") (GoFloatVal.finite 10) =
      some (Except.error ("timeout exceeded"),
        [ (("k" : String), (⟨(""), none⟩ : KeyValue)) ]) := by
  decide

/-- C2: a `Set` without expiry stores the zero `time.Time` instant
behind a non-nil pointer, and the next `Get` (at any positive clock
instant) therefore reports "key has expired" and evicts the entry,
contrary to the claim that an entry stored without an expiry never
expires and that `get` then returns the value. -/
theorem set_without_expiry_get_reports_expired :
    (Set [] ("hello") ("world") 0 ("")).1 = Except.ok ("OK") ∧
    Get 1 (Set [] ("hello") ("world") 0 ("")).2 ("hello") =
      (Except.error ("key has expired"), []) := by
  decide

/-- C3 counterexample: with key `"q"` present and its element sequence
empty, `BQPop` at timeout `0` returns an empty-string success while
`QPop` returns the "queue is empty" error — so `blockingPop(k, 0)`
does not return exactly what `pop(k)` returns, and an empty success
does occur. -/
theorem bqpop_zero_differs_from_qpop :
    BQPop 0 [ (("q" : String), (⟨(""), none⟩ : KeyValue)) ] ("q")
        (GoFloatVal.finite 0) =
      some (Except.ok (""), [ (("q" : String), (⟨(""), none⟩ : KeyValue)) ]) ∧
    (QPop 0 [ (("q" : String), (⟨(""), none⟩ : KeyValue)) ] ("q")).1 =
      Except.error ("queue is empty") := by
  decide

/-- C3 (amended): `BQPop` at timeout `0` never behaves exactly like
`QPop`.  An absent key yields the distinct "queue does not exist"
error while `QPop` yields "key not found"; a present key with an
empty element sequence yields an empty-string success (store
unchanged) where `QPop` yields the "queue is empty" error; and a
present key with a non-empty element sequence makes the call
self-deadlock — `BQPop` re-acquires the mutex it still holds when it
delegates to `QPop` — so it never returns the tail element `QPop`
would return. -/
theorem bqpop_zero_behavior (now : Int) (s : Store) (k : String) :
    (lookupKey s k = none →
      BQPop now s k (GoFloatVal.finite 0) =
        some (Except.error ("queue does not exist"), s) ∧
      QPop now s k = (Except.error ("key not found"), s)) ∧
    (∀ kv, lookupKey s k = some kv →
      (0 < (goFields kv.value).length →
        BQPop now s k (GoFloatVal.finite 0) = none) ∧
      (goFields kv.value = [] →
        BQPop now s k (GoFloatVal.finite 0) = some (Except.ok (""), s) ∧
        (QPop now s k).1 = Except.error ("queue is empty"))) := by
  constructor
  · intro h
    constructor
    · simp [BQPop, h]
    · simp [QPop, h]
  · intro kv h
    constructor
    · intro hlen
      simp [BQPop, h, hlen]
    · intro hf
      constructor
      · simp [BQPop, h, hf]
      · by_cases hx : expired now kv
        · simp [QPop, h, hx]
        · simp [QPop, h, hx, hf]

theorem bqpop_zero_behavior_witness :
    BQPop 0 [ (("w" : String), (⟨(""), none⟩ : KeyValue)) ] ("w") (GoFloatVal.finite 0) =
      some (Except.ok (""), [ (("w" : String), (⟨(""), none⟩ : KeyValue)) ]) ∧
    (QPop 0 [ (("w" : String), (⟨(""), none⟩ : KeyValue)) ] ("w")).1 =
      Except.error ("queue is empty") :=
  ((bqpop_zero_behavior 0 [ (("w" : String), (⟨(""), none⟩ : KeyValue)) ] ("w")).2
    ⟨(""), none⟩ rfl).2 rfl

/-- C4 counterexample: `QPop` on an absent key fails with
"key not found", a distinct error from the "queue is empty" error the
claim says is the only one `pop` ever returns. -/
theorem qpop_absent_is_key_not_found :
    (QPop 0 [] ("k")).1 = Except.error ("key not found") ∧
    (Except.error ("key not found") : Except String String) ≠
      Except.error ("queue is empty") := by
  decide

/-- C4 (amended): `QPop` fails with "queue is empty" exactly when the
key is present and its entry is expired or has an empty element
sequence; it fails with "key not found" exactly when the key is
absent; and these two are the only error kinds `QPop` returns. -/
theorem qpop_error_kinds (now : Int) (s : Store) (k : String) :
    ((QPop now s k).1 = Except.error ("queue is empty") ↔
      ∃ kv, lookupKey s k = some kv ∧
        (expired now kv = true ∨ goFields kv.value = [])) ∧
    ((QPop now s k).1 = Except.error ("key not found") ↔ lookupKey s k = none) ∧
    (∀ e, (QPop now s k).1 = Except.error e →
      e = "queue is empty" ∨ e = "key not found") := by
  rcases hl : lookupKey s k with _ | kv
  · refine ⟨?_, ?_, ?_⟩
    · simp [QPop, hl]
    · simp [QPop, hl]
    · intro e he
      simp [QPop, hl] at he
      simp [he]
  · by_cases hx : expired now kv
    · refine ⟨?_, ?_, ?_⟩
      · simp [QPop, hl, hx]
      · simp [QPop, hl, hx]
      · intro e he
        simp [QPop, hl, hx] at he
        simp [he]
    · rcases hg : (goFields kv.value).getLast? with _ | w
      · have hnil : goFields kv.value = [] := by
          cases hgf : goFields kv.value with
          | nil => rfl
          | cons a l => rw [hgf] at hg; simp [List.getLast?] at hg
        refine ⟨?_, ?_, ?_⟩
        · simp [QPop, hl, hx, hg, hnil]
        · simp [QPop, hl, hx, hg]
        · intro e he
          simp [QPop, hl, hx, hg] at he
          simp [he]
      · have hne : goFields kv.value ≠ [] := by
          intro hc
          rw [hc] at hg
          simp at hg
        refine ⟨?_, ?_, ?_⟩
        · simp [QPop, hl, hx, hg, hne]
        · simp [QPop, hl, hx, hg]
        · intro e he
          simp [QPop, hl, hx, hg] at he

theorem qpop_error_kinds_witness :
    ("key not found" : String) = "queue is empty" ∨
      ("key not found" : String) = "key not found" :=
  (qpop_error_kinds 0 [] ("k")).2.2 ("key not found") (by decide)

/-- C5: on a fresh key, `push(k,"a"); push(k,"b")` builds the element
sequence `["a","b"]` (arguments appended in order to the tail, also
when pushed in one call), and popping is LIFO from the tail: the first
`QPop` returns "b", the second returns "a", and the third fails with
the "queue is empty" error. -/
theorem qpush_qpop_lifo (now : Int) (s : Store) (k : String)
    (hk : lookupKey s k = none) :
    elements (QPush (QPush s k [ "a" ]) k [ "b" ]) k = [ "a", "b" ] ∧
    elements (QPush s k [ "a", "b" ]) k = [ "a", "b" ] ∧
    (QPop now (QPush (QPush s k [ "a" ]) k [ "b" ]) k).1 = Except.ok ("b") ∧
    (QPop now (QPop now (QPush (QPush s k [ "a" ]) k [ "b" ]) k).2 k).1 =
      Except.ok ("a") ∧
    (QPop now
        (QPop now (QPop now (QPush (QPush s k [ "a" ]) k [ "b" ]) k).2 k).2 k).1 =
      Except.error ("queue is empty") := by
  have h1 : QPush s k [ "a" ] = insertKey s k ⟨("a "), none⟩ := by
    rw [QPush_fresh s k ("a") hk]
    rfl
  have h2 : QPush (QPush s k [ "a" ]) k [ "b" ] = insertKey s k ⟨("a b "), none⟩ := by
    rw [h1, QPush_existing _ k ("b") ⟨("a "), none⟩ (lookupKey_insertKey_self s k _),
      insertKey_insertKey]
    rfl
  have h2' : QPush s k [ "a", "b" ] = insertKey s k ⟨("a b "), none⟩ := by
    unfold QPush
    rw [hk]
    simp [lookupKey_insertKey_self, insertKey_insertKey]
  have hf2 : goFields ("a b ") = [ "a", "b" ] := by decide
  have hj1 : goJoin [ "a" ] (" ") = ("a") := by decide
  have hj0 : goJoin ([] : List String) (" ") = ("") := by decide
  have hp1 : QPop now (insertKey s k ⟨("a b "), none⟩) k =
      (Except.ok ("b"), insertKey s k ⟨("a"), none⟩) := by
    simp [QPop, lookupKey_insertKey_self, expired, hf2, insertKey_insertKey, hj1]
  have hf1 : goFields ("a") = [ "a" ] := by decide
  have hp2 : QPop now (insertKey s k ⟨("a"), none⟩) k =
      (Except.ok ("a"), insertKey s k ⟨(""), none⟩) := by
    simp [QPop, lookupKey_insertKey_self, expired, hf1, insertKey_insertKey, hj0]
  have hf0 : goFields ("") = [] := by decide
  have hp3 : (QPop now (insertKey s k ⟨(""), none⟩) k).1 =
      Except.error ("queue is empty") := by
    simp [QPop, lookupKey_insertKey_self, expired, hf0]
  refine ⟨?_, ?_, ?_, ?_, ?_⟩
  · rw [h2]
    simp [elements, lookupKey_insertKey_self, hf2]
  · rw [h2']
    simp [elements, lookupKey_insertKey_self, hf2]
  · rw [h2, hp1]
  · rw [h2, hp1, hp2]
  · rw [h2, hp1, hp2]
    exact hp3

theorem qpush_qpop_lifo_witness :
    elements (QPush (QPush [] ("p") [ "a" ]) ("p") [ "b" ]) ("p") = [ "a", "b" ] ∧
    elements (QPush [] ("p") [ "a", "b" ]) ("p") = [ "a", "b" ] ∧
    (QPop 0 (QPush (QPush [] ("p") [ "a" ]) ("p") [ "b" ]) ("p")).1 =
      Except.ok ("b") ∧
    (QPop 0 (QPop 0 (QPush (QPush [] ("p") [ "a" ]) ("p") [ "b" ]) ("p")).2 ("p")).1 =
      Except.ok ("a") ∧
    (QPop 0
        (QPop 0 (QPop 0 (QPush (QPush [] ("p") [ "a" ]) ("p") [ "b" ]) ("p")).2
          ("p")).2 ("p")).1 =
      Except.error ("queue is empty") :=
  qpush_qpop_lifo 0 [] ("p") rfl

/-- C6 counterexample: with key `"m"` present holding an empty element
sequence, `QPop` fails with "queue is empty" but deletes the entry —
the store after the failed call differs from the store before it,
contrary to the claim that a failed operation never changes the
store. -/
theorem failed_qpop_mutates_store :
    (QPop 0 [ (("m" : String), (⟨(""), none⟩ : KeyValue)) ] ("m")).1 =
      Except.error ("queue is empty") ∧
    (QPop 0 [ (("m" : String), (⟨(""), none⟩ : KeyValue)) ] ("m")).2 ≠
      [ (("m" : String), (⟨(""), none⟩ : KeyValue)) ] := by
  decide

/-- C6 (amended): a failed `Set` leaves the store unchanged, as do a
`Get` or `QPop` failing with "key not found"; but a `Get` failing
with "key has expired" and a `QPop` failing with "queue is empty"
delete the touched entry as a side effect.  Every `BQPop` call that
returns at all leaves the store unchanged (its only store-mutating
path — the delegation to `QPop` on a non-empty queue — self-deadlocks
and never returns), and in particular `BQPop` can never fail with
"queue is empty". -/
theorem failure_state_effects (now : Int) (s : Store) (k v cond : String) (e : Int)
    (q : GoFloatVal) :
    (∀ msg, (Set s k v e cond).1 = Except.error msg → (Set s k v e cond).2 = s) ∧
    ((Get now s k).1 = Except.error ("key not found") → (Get now s k).2 = s) ∧
    ((Get now s k).1 = Except.error ("key has expired") →
      (Get now s k).2 = deleteKey s k) ∧
    ((QPop now s k).1 = Except.error ("key not found") → (QPop now s k).2 = s) ∧
    ((QPop now s k).1 = Except.error ("queue is empty") →
      (QPop now s k).2 = deleteKey s k) ∧
    (∀ r s2, BQPop now s k q = some (r, s2) → s2 = s) ∧
    (∀ s2, BQPop now s k q ≠ some (Except.error ("queue is empty"), s2)) := by
  refine ⟨?_, ?_, ?_, ?_, ?_, ?_, ?_⟩
  · intro msg h
    revert h
    unfold Set
    split
    · intro _
      rfl
    · split
      · intro _
        rfl
      · intro h
        simp at h
  · intro h
    rcases hl : lookupKey s k with _ | kv
    · simp [Get, hl]
    · by_cases hx : expired now kv
      · simp [Get, hl, hx] at h
      · simp [Get, hl, hx] at h
  · intro h
    rcases hl : lookupKey s k with _ | kv
    · simp [Get, hl] at h
    · by_cases hx : expired now kv
      · simp [Get, hl, hx]
      · simp [Get, hl, hx] at h
  · intro h
    rcases hl : lookupKey s k with _ | kv
    · simp [QPop, hl]
    · by_cases hx : expired now kv
      · simp [QPop, hl, hx] at h
      · rcases hg : (goFields kv.value).getLast? with _ | w
        · simp [QPop, hl, hx, hg] at h
        · simp [QPop, hl, hx, hg] at h
  · intro h
    rcases hl : lookupKey s k with _ | kv
    · simp [QPop, hl] at h
    · by_cases hx : expired now kv
      · simp [QPop, hl, hx]
      · rcases hg : (goFields kv.value).getLast? with _ | w
        · simp [QPop, hl, hx, hg]
        · simp [QPop, hl, hx, hg] at h
  · intro r s2 h
    rcases hl : lookupKey s k with _ | kv
    · simp [BQPop, hl] at h
      exact h.2.symm
    · by_cases hlen : 0 < (goFields kv.value).length
      · simp [BQPop, hl, hlen] at h
      · by_cases hq : q = GoFloatVal.finite 0
        · simp [BQPop, hl, hlen, hq] at h
          exact h.2.symm
        · simp [BQPop, hl, hlen, hq] at h
          exact h.2.symm
  · intro s2 h
    rcases hl : lookupKey s k with _ | kv
    · simp [BQPop, hl] at h
    · by_cases hlen : 0 < (goFields kv.value).length
      · simp [BQPop, hl, hlen] at h
      · by_cases hq : q = GoFloatVal.finite 0
        · simp [BQPop, hl, hlen, hq] at h
        · simp [BQPop, hl, hlen, hq] at h

theorem failure_state_effects_witness :
    (Get 0 [] ("g")).2 = ([] : Store) :=
  (failure_state_effects 0 [] ("g") ("v") ("") 0 (GoFloatVal.finite 0)).2.1 rfl

/-- C7 counterexample: key `"x"` holds an entry whose expiry instant 5
has elapsed at `now = 10`, yet `QPush` appends to the stale element
sequence (keeping the stale expiry) instead of behaving as if the key
were absent — pushing after deleting the expired entry gives a
different store. -/
theorem qpush_expired_appends_to_stale :
    expired 10 (⟨("old "), some 5⟩ : KeyValue) = true ∧
    QPush [ (("x" : String), (⟨("old "), some 5⟩ : KeyValue)) ] ("x") [ "new" ] =
      [ (("x" : String), (⟨("old new "), some 5⟩ : KeyValue)) ] ∧
    QPush (deleteKey [ (("x" : String), (⟨("old "), some 5⟩ : KeyValue)) ] ("x"))
        ("x") [ "new" ] =
      [ (("x" : String), (⟨("new "), none⟩ : KeyValue)) ] ∧
    ([ (("x" : String), (⟨("old new "), some 5⟩ : KeyValue)) ] : Store) ≠
      [ (("x" : String), (⟨("new "), none⟩ : KeyValue)) ] := by
  decide

/-- C7 (amended): only `QPop` and `Get` observe an elapsed expiry —
`QPop` deletes the entry and reports "queue is empty", while `Get`
deletes it but reports the distinct "key has expired" error; `QPush`
ignores expiry and appends to the stale element sequence, a
conditional `Set NX` still sees the key as present, and `BQPop` at
timeout `0` still treats the stale (field-less) entry as an existing
empty queue. -/
theorem expired_entry_observed (now : Int) (s : Store) (k : String) (kv : KeyValue)
    (hl : lookupKey s k = some kv) (he : expired now kv = true) :
    Get now s k = (Except.error ("key has expired"), deleteKey s k) ∧
    QPop now s k = (Except.error ("queue is empty"), deleteKey s k) ∧
    (∀ v, QPush s k [ v ] = insertKey s k ⟨kv.value ++ v ++ (" "), kv.expiryTime⟩) ∧
    (∀ v e, (Set s k v e ("NX")).1 = Except.error ("key already exists")) ∧
    (goFields kv.value = [] →
      BQPop now s k (GoFloatVal.finite 0) = some (Except.ok (""), s)) := by
  refine ⟨?_, ?_, ?_, ?_, ?_⟩
  · simp [Get, hl, he]
  · simp [QPop, hl, he]
  · intro v
    exact QPush_existing s k v kv hl
  · intro v e
    simp [Set, hl]
  · intro hf
    simp [BQPop, hl, hf]

theorem expired_entry_observed_witness :
    Get 1 [ (("e" : String), (⟨(""), some 0⟩ : KeyValue)) ] ("e") =
      (Except.error ("key has expired"),
        deleteKey [ (("e" : String), (⟨(""), some 0⟩ : KeyValue)) ] ("e")) :=
  (expired_entry_observed 1 [ (("e" : String), (⟨(""), some 0⟩ : KeyValue)) ] ("e")
    ⟨(""), some 0⟩ rfl (by decide)).1

/-- C8: `Set` with condition `NX` fails with "key already exists"
exactly when the key is present (presence read straight off the map,
ignoring expiry staleness) and otherwise writes the entry; with `XX`
it fails with "key does not exist" exactly when the key is absent and
otherwise writes; with no condition it always succeeds and overwrites. -/
theorem set_condition_semantics (s : Store) (k v : String) (e : Int) :
    ((Set s k v e ("NX")).1 = Except.error ("key already exists") ↔
      (lookupKey s k).isSome = true) ∧
    (lookupKey s k = none →
      Set s k v e ("NX") = (Except.ok ("OK"), insertKey s k ⟨v, some e⟩)) ∧
    ((Set s k v e ("XX")).1 = Except.error ("key does not exist") ↔
      lookupKey s k = none) ∧
    ((lookupKey s k).isSome = true →
      Set s k v e ("XX") = (Except.ok ("OK"), insertKey s k ⟨v, some e⟩)) ∧
    Set s k v e ("") = (Except.ok ("OK"), insertKey s k ⟨v, some e⟩) := by
  rcases hl : lookupKey s k with _ | kv
  · refine ⟨?_, ?_, ?_, ?_, ?_⟩
    · simp [Set, hl]
    · intro _
      simp [Set, hl]
    · simp [Set, hl]
    · intro hc
      simp [hl] at hc
    · simp [Set, hl]
  · refine ⟨?_, ?_, ?_, ?_, ?_⟩
    · simp [Set, hl]
    · intro hc
      simp [hl] at hc
    · simp [Set, hl]
    · intro _
      simp [Set, hl]
    · simp [Set, hl]

theorem set_condition_semantics_witness :
    Set [] ("k") ("v") 7 ("NX") =
      (Except.ok ("OK"), insertKey [] ("k") ⟨("v"), some 7⟩) :=
  (set_condition_semantics [] ("k") ("v") 7).2.1 rfl

/-- C9 counterexample: the expiry token `-5` parses under
`strconv.Atoi`, so the command `SET k v EX -5` is not rejected — the
store is invoked and the entry is written (with an already-past expiry
instant), contrary to the claim that a token parsing as a negative
number is rejected before the store is touched. -/
theorem negative_expiry_reaches_store :
    handleSetCmd 100 [] [ "SET", "k", "v", "EX", "-5" ] =
      (HandlerResp.okResult ("OK"),
        [ (("k" : String), (⟨("v"), some 95⟩ : KeyValue)) ]) ∧
    ([] : Store) ≠ [ (("k" : String), (⟨("v"), some 95⟩ : KeyValue)) ] := by
  decide

/-- C9 (amended): a `SET` whose `EX` token fails `strconv.Atoi` is
rejected with "invalid expiry time" and a `BQPOP` whose timeout token
fails `strconv.ParseFloat` is rejected with "invalid timeout", in both
cases before the store is invoked and with the store unchanged;
tokens that do parse — including negative numbers — are accepted and
reach the store. -/
theorem nonnumeric_token_rejected_before_store (now : Int) (s : Store)
    (key value tok k2 t2 : String) (rest : List String)
    (h1 : goAtoi tok = none) (h2 : goParseFloat t2 = none) :
    handleSetCmd now s (("SET") :: key :: value :: ("EX") :: tok :: rest) =
      (HandlerResp.errorResp ("invalid expiry time"), s) ∧
    handleBQPopCmd now s [ "BQPOP", k2, t2 ] =
      some (HandlerResp.errorResp ("invalid timeout"), s) := by
  constructor
  · simp [handleSetCmd, parseSetArgs, h1]
  · simp [handleBQPopCmd, h2]

theorem nonnumeric_token_rejected_before_store_witness :
    handleSetCmd 0 [] [ "SET", "a", "b", "EX", "zz" ] =
      (HandlerResp.errorResp ("invalid expiry time"), ([] : Store)) ∧
    handleBQPopCmd 0 [] [ "BQPOP", "a", "zz2" ] =
      some (HandlerResp.errorResp ("invalid timeout"), ([] : Store)) :=
  nonnumeric_token_rejected_before_store 0 [] ("a") ("b") ("zz") ("a") ("zz2") []
    (by decide) (by decide)

/-- C10: on a fresh key, a single `QPush` stores the value as part of a
space-joined string, so the element sequence it creates is exactly the
white-space fields of the pushed value: a non-empty white-space-free
value round-trips through `QPop`; a value with white space contributes
one element per field (a following `QPop` returns only the last
field); and an empty or all-white-space value adds no element at all,
so the following `QPop` fails with "queue is empty". -/
theorem qpush_qpop_field_representation (now : Int) (s : Store) (k v : String)
    (hk : lookupKey s k = none) :
    elements (QPush s k [ v ]) k = goFields v ∧
    (goFields v = [] →
      (QPop now (QPush s k [ v ]) k).1 = Except.error ("queue is empty")) ∧
    (∀ w, (goFields v).getLast? = some w →
      (QPop now (QPush s k [ v ]) k).1 = Except.ok w) ∧
    (v.data ≠ [] → (∀ c ∈ v.data, goIsSpace c = false) →
      (QPop now (QPush s k [ v ]) k).1 = Except.ok v) := by
  rw [QPush_fresh s k v hk]
  refine ⟨?_, ?_, ?_, ?_⟩
  · simp [elements, lookupKey_insertKey_self, goFields_space_suffix]
  · intro h
    simp [QPop, lookupKey_insertKey_self, expired, goFields_space_suffix, h]
  · intro w hw
    simp [QPop, lookupKey_insertKey_self, expired, goFields_space_suffix, hw]
  · intro h1 h2
    have hv : goFields v = [ v ] := goFields_single v h1 h2
    simp [QPop, lookupKey_insertKey_self, expired, goFields_space_suffix, hv]

theorem qpush_qpop_field_representation_witness :
    (QPop 0 (QPush [] ("k") [ "ab" ]) ("k")).1 = Except.ok ("ab") :=
  (qpush_qpop_field_representation 0 [] ("k") ("ab") rfl).2.2.2 (by decide) (by decide)

end GreedyApi
